import Mathlib

/-!
Shallow embedding of `src/gptfunction/GPTFunction.py` (the `GPTFunction`
class: result coercion in `__call__`, `schema`, `_create_function_params`,
`_parse_params`, `_parse_param_type`) together with theorems settling the
spec claims about it.

Python runtime values are modelled explicitly:
* parameter type hints become the inductive `PyType`; `get_args` and the
  `Enum`-subclass test are modelled from their behaviour on those shapes;
* Python dicts (the annotation map, the `properties` object) become ordered
  association lists `List (String × _)` with Python's insertion-order
  update semantics (`dictInsert`);
* the docstring parser is an external collaborator (spec section 6): the
  adapter state holds its parsed output (short description and per-parameter
  entries) rather than raw text;
* `logging.warning` becomes an explicit diagnostics list;
* the in-place `del annotations["return"]` mutation of the wrapped
  callable's live `__annotations__` dict is modelled by state passing:
  `schema` returns the updated adapter state next to its result;
* `raise ValueError(...)` becomes `Except.error` with the same message.
-/

namespace GPT

/-- Python type hints that can appear as a parameter annotation, shaped by
how `_parse_param_type` branches on them: `str`, `int`, `float`; a
string-valued `typing.Literal[...]` (its arguments, in declared order); any
other parameterized hint — `list[int]`, `Optional[int]`, `Dict[str, int]`,
a non-string `Literal[1, 2]` — on which `typing.get_args` returns a
non-empty argument tuple (each argument, a class object or a literal value,
is represented here by its repr text); a subclass of `Enum` with string
member values (in definition order); a subclass of `Enum` with non-string
member values (each represented by its repr text); or a plain non-`Enum`
class with no type arguments (e.g. `dict`, `bool`, `list`), identified by
its repr text.  An object that is not a string carries no structure any
claim inspects, so the embedding stands each one in by its repr text. -/
inductive PyType where
  | pystr
  | pyint
  | pyfloat
  | literal (args : List String)
  | parameterized (reprText : String) (args : List String)
  | enumType (values : List String)
  | enumNonString (values : List String)
  | other (reprText : String)
deriving DecidableEq

/-- Repr text of a type hint, as interpolated into the `ValueError` message
by the f-string in `_parse_param_type`. -/
def typeName : PyType → String
  | .pystr => "<class 'str'>"
  | .pyint => "<class 'int'>"
  | .pyfloat => "<class 'float'>"
  | .literal args => "typing.Literal[" ++ String.intercalate ", " args ++ "]"
  | .parameterized reprText _ => reprText
  | .enumType _ => "<enum>"
  | .enumNonString _ => "<enum>"
  | .other reprText => reprText

/-- `typing.get_args`: returns the (non-empty) argument tuple of any
parameterized hint — a `Literal`, but also `list[int]`, `Optional[int]`,
`Dict[str, int]` and so on; empty on plain classes and `Enum`
subclasses. -/
def get_args : PyType → List String
  | .literal args => args
  | .parameterized _ args => args
  | _ => []

/-- `isinstance(param_type, type) and issubclass(param_type, Enum)`: true
for every `Enum` subclass, whatever its member values. -/
def isEnumSubclass : PyType → Bool
  | .enumType _ => true
  | .enumNonString _ => true
  | _ => false

/-- `[e.value for e in param_type]`: member values in definition order,
whether or not they are strings. -/
def enumMemberValues : PyType → List String
  | .enumType values => values
  | .enumNonString values => values
  | _ => []

/-- One entry of `docstring_parser`'s `params` output: a parameter name and
its description text (multiple source lines joined by a newline). -/
structure DocstringParam where
  arg_name : String
  description : String
deriving DecidableEq

/-- The dataclass `GPTFunction._FunctionParam`. -/
structure FunctionParam where
  name : String
  typing : PyType
  description : String
deriving DecidableEq

/-- The schema fragment returned by `_parse_param_type`: always a `"type"`
key, plus an `"enum"` key exactly for enumerated types. -/
structure TypeFragment where
  type : String
  enum : Option (List String)
deriving DecidableEq

/-- One value of the `properties` mapping: the type fragment united with
`{"description": ...}` by `_parse_params`. -/
structure ParamProperty where
  type : String
  enum : Option (List String)
  description : String
deriving DecidableEq

/-- The `{"type": "object", "properties": {...}}` object built by
`_parse_params`; `properties` is an insertion-ordered dict. -/
structure ParametersObject where
  type : String
  properties : List (String × ParamProperty)
deriving DecidableEq

/-- The inner `"function"` object of the schema. -/
structure FunctionObject where
  name : String
  description : String
  parameters : ParametersObject
deriving DecidableEq

/-- The full schema descriptor `{"type": "function", "function": {...}}`. -/
structure SchemaDescriptor where
  type : String
  function : FunctionObject
deriving DecidableEq

/-- Adapter state: the data `schema`/`name`/`description` read from the
wrapped callable.  `funcAnnotations` is the live `__annotations__` dict
(declaration order, `"return"` entry last when present); `shortDescription`
and `docstringParams` are the docstring parser's output for `__doc__`. -/
structure FuncState where
  funcName : String
  shortDescription : String
  docstringParams : List DocstringParam
  funcAnnotations : List (String × PyType)
deriving DecidableEq

/-- The guarded `if "return" in annotations: del annotations["return"]`:
removes the `"return"` entry (a no-op when absent). -/
def removeReturn (anns : List (String × PyType)) : List (String × PyType) :=
  anns.filter (fun kv => kv.1 != "return")

/-- `keyed_docstring_params = {p.arg_name: p for p in docstring_params}`
followed by lookup: a dict comprehension keeps the last entry per key. -/
def keyedLookup (docs : List DocstringParam) (key : String) : Option DocstringParam :=
  docs.foldl (fun acc p => if p.arg_name == key then some p else acc) none

/-- The `logging.warning` message for an undocumented parameter. -/
def warningMessage (key : String) : String :=
  "Function param " ++ key ++
    " has no docstring description. Add a docstring description for more accurate use by GPT."

/-- The `for key in annotations` loop of `_create_function_params`: builds
the `_FunctionParam` list in annotation order and collects the warnings
emitted for parameters without a matching docstring entry. -/
def buildParams (docs : List DocstringParam) :
    List (String × PyType) → List FunctionParam × List String
  | [] => ([], [])
  | kv :: rest =>
    let tail := buildParams docs rest
    match keyedLookup docs kv.1 with
    | some p => (⟨kv.1, kv.2, p.description⟩ :: tail.1, tail.2)
    | none => (⟨kv.1, kv.2, ""⟩ :: tail.1, warningMessage kv.1 :: tail.2)

/-- Result of `_create_function_params`: the annotation dict after the
in-place `del` of the `"return"` entry, the parameter records, and the
diagnostics written to the log. -/
structure ExtractResult where
  newAnnotations : List (String × PyType)
  params : List FunctionParam
  diagnostics : List String
deriving DecidableEq

/-- `GPTFunction._create_function_params`.  Note that the `del` mutates the
dict object passed in (the callable's own `__annotations__`), which is why
the updated dict is part of the result. -/
def create_function_params (anns : List (String × PyType))
    (docstring_params : List DocstringParam) : ExtractResult :=
  let anns2 := removeReturn anns
  let built := buildParams docstring_params anns2
  ⟨anns2, built.1, built.2⟩

/-- The `ValueError` message raised by `_parse_param_type`. -/
def unsupportedMessage (t : PyType) : String :=
  "Unexpected type found while parsing parameter type: " ++ typeName t

/-- `GPTFunction._parse_param_type`: the if/elif chain over the type hint. -/
def parse_param_type (param_type : PyType) : Except String TypeFragment :=
  if param_type = .pystr then .ok ⟨"string", none⟩
  else if param_type = .pyint then .ok ⟨"int", none⟩
  else if param_type = .pyfloat then .ok ⟨"float", none⟩
  else if get_args param_type ≠ [] then .ok ⟨"string", some (get_args param_type)⟩
  else if isEnumSubclass param_type then .ok ⟨"string", some (enumMemberValues param_type)⟩
  else .error (unsupportedMessage param_type)

/-- Python dict update `d | {key: val}` (and `|=`): an existing key keeps
its position and gets the new value, a new key is appended at the end. -/
def dictInsert {α : Type} (d : List (String × α)) (key : String) (val : α) :
    List (String × α) :=
  if d.any (fun kv => kv.1 == key) then
    d.map (fun kv => if kv.1 == key then (key, val) else kv)
  else d ++ [(key, val)]

/-- `frag | {"description": desc}`. -/
def withDescription (frag : TypeFragment) (desc : String) : ParamProperty :=
  ⟨frag.type, frag.enum, desc⟩

/-- The `for param in params` loop of `_parse_params` accumulating
`schema_params`; the first unsupported parameter type aborts the loop with
its `ValueError`. -/
def parse_params_aux : List FunctionParam → List (String × ParamProperty) →
    Except String (List (String × ParamProperty))
  | [], acc => .ok acc
  | p :: rest, acc =>
    match parse_param_type p.typing with
    | .error e => .error e
    | .ok frag => parse_params_aux rest (dictInsert acc p.name (withDescription frag p.description))

/-- `GPTFunction._parse_params`. -/
def parse_params (params : List FunctionParam) : Except String ParametersObject :=
  (parse_params_aux params []).map (fun props => ⟨"object", props⟩)

/-- `GPTFunction.schema`.  Returns the adapter state after the call (the
`del` inside `_create_function_params` removed the `"return"` annotation
from the wrapped callable) next to the descriptor or the raised error. -/
def schema (st : FuncState) : FuncState × Except String SchemaDescriptor :=
  let ext := create_function_params st.funcAnnotations st.docstringParams
  ({ st with funcAnnotations := ext.newAnnotations },
    (parse_params ext.params).map
      (fun ps => ⟨"function", ⟨st.funcName, st.shortDescription, ps⟩⟩))

/-- `GPTFunction.name`: reads `func.__name__`, touching nothing. -/
def adapterName (st : FuncState) : FuncState × String :=
  (st, st.funcName)

/-- `GPTFunction.description`: re-parses the docstring on each call and
returns its short description, touching nothing. -/
def adapterDescription (st : FuncState) : FuncState × String :=
  (st, st.shortDescription)

/-- A Python value as seen by the result coercion in `__call__`: a `str`,
an `int`, `None`, or any other object, characterised by whether its
`__str__` attribute is truthy and by its `str(...)` text. -/
inductive PyValue where
  | vstr (s : String)
  | vint (n : Int)
  | vnone
  | vother (strAttrTruthy : Bool) (strText : String)
deriving DecidableEq

/-- Truthiness of `getattr(result, "__str__")`: `str`, `int` and `None` all
inherit a (truthy, bound-method) `__str__` from `object`. -/
def strAttrTruthy : PyValue → Bool
  | .vother b _ => b
  | _ => true

/-- `str(result)`: `str(None)` is the four-character text `None`. -/
def pyStr : PyValue → String
  | .vstr s => s
  | .vint n => toString n
  | .vnone => "None"
  | .vother _ strText => strText

/-- The result-coercion policy of `GPTFunction.__call__`, applied to the
wrapped callable's return value. -/
def coerceResult (result : PyValue) : String :=
  match result with
  | .vstr s => s
  | _ => if strAttrTruthy result then pyStr result else ""

/-- The invocation adapter: `GPTFunction` seen as a callable.  Only the
wrapped callable's behaviour on the forwarded arguments matters here. -/
structure Adapter where
  func : List PyValue → PyValue

/-- `GPTFunction.__call__`: call the wrapped callable, coerce the result. -/
def callAdapter (a : Adapter) (args : List PyValue) : String :=
  coerceResult (a.func args)

/-- A type hint the if/elif chain of `_parse_param_type` accepts.  This is
strictly wider than the spec's supported category set: any hint with a
non-empty `typing.get_args` tuple and any `Enum` subclass passes, including
`list[int]`, `Optional[int]`, non-string `Literal`s and non-string-valued
`Enum`s. -/
def isSupportedType (t : PyType) : Bool :=
  t == .pystr || t == .pyint || t == .pyfloat ||
    !(get_args t).isEmpty || isEnumSubclass t

/-- The supported type-category set of the spec (sections 3 and 4.1),
stated from the spec's words for comparison with the code's acceptance
condition `isSupportedType`: string, integer, float, and enumerated-string,
the latter being a string-valued `Literal` or string-valued `Enum` with a
non-empty, ordered value list. -/
def specSupportedCategory : PyType → Bool
  | .pystr => true
  | .pyint => true
  | .pyfloat => true
  | .literal args => !args.isEmpty
  | .enumType values => !values.isEmpty
  | _ => false

/-- Whether an `Except` carries a value (the call did not raise). -/
def isOkE {ε α : Type} : Except ε α → Bool
  | .ok _ => true
  | .error _ => false

/-- What ordered argument or member-value list the source construct of a
type hint declares: the `Literal` or generic-hint arguments, or the enum
member values. -/
def declaredEnumValues : PyType → Option (List String)
  | .literal args => some args
  | .parameterized _ args => some args
  | .enumType values => some values
  | .enumNonString values => some values
  | _ => none

/-! ### Helper lemmas -/

theorem parse_param_type_isOk (t : PyType) :
    isOkE (parse_param_type t) = isSupportedType t := by
  cases t with
  | literal args =>
    by_cases h : args = [] <;>
      simp [parse_param_type, isSupportedType, get_args, isEnumSubclass, isOkE, h]
  | parameterized reprText args =>
    by_cases h : args = [] <;>
      simp [parse_param_type, isSupportedType, get_args, isEnumSubclass, isOkE, h]
  | _ => simp [parse_param_type, isSupportedType, get_args, isEnumSubclass, isOkE]

theorem parse_param_type_of_unsupported (t : PyType) (h : isSupportedType t = false) :
    parse_param_type t = .error (unsupportedMessage t) := by
  cases t with
  | literal args =>
    by_cases he : args = [] <;>
      simp_all [parse_param_type, isSupportedType, get_args, isEnumSubclass]
  | parameterized reprText args =>
    by_cases he : args = [] <;>
      simp_all [parse_param_type, isSupportedType, get_args, isEnumSubclass]
  | _ => simp_all [parse_param_type, isSupportedType, get_args, isEnumSubclass]

theorem isOkE_map {ε α β : Type} (f : α → β) (e : Except ε α) :
    isOkE (e.map f) = isOkE e := by
  cases e <;> rfl

theorem buildParams_pairs (docs : List DocstringParam) (anns : List (String × PyType)) :
    ((buildParams docs anns).1).map (fun p => (p.name, p.typing)) = anns := by
  induction anns with
  | nil => rfl
  | cons kv rest ih =>
    cases h : keyedLookup docs kv.1 <;> simp [buildParams, h, ih]

theorem buildParams_mem (docs : List DocstringParam) (anns : List (String × PyType))
    (key : String) (ty : PyType) (hmem : (key, ty) ∈ anns)
    (hdoc : keyedLookup docs key = none) :
    (⟨key, ty, ""⟩ : FunctionParam) ∈ (buildParams docs anns).1 ∧
      warningMessage key ∈ (buildParams docs anns).2 := by
  induction anns with
  | nil => cases hmem
  | cons kv rest ih =>
    rcases List.mem_cons.mp hmem with heq | htail
    · cases heq
      simp [buildParams, hdoc]
    · have := ih htail
      cases h : keyedLookup docs kv.1 <;>
        simp [buildParams, h, this.1, this.2]

theorem parse_params_aux_isOk (ps : List FunctionParam) (acc : List (String × ParamProperty)) :
    isOkE (parse_params_aux ps acc) = ps.all (fun p => isSupportedType p.typing) := by
  induction ps generalizing acc with
  | nil => simp [parse_params_aux, isOkE]
  | cons p rest ih =>
    have hp := parse_param_type_isOk p.typing
    cases h : parse_param_type p.typing with
    | error e =>
      rw [h] at hp
      have hp' : isSupportedType p.typing = false := by rw [← hp]; rfl
      simp [parse_params_aux, h, isOkE, List.all_cons, hp']
    | ok frag =>
      rw [h] at hp
      have hp' : isSupportedType p.typing = true := by rw [← hp]; rfl
      simp [parse_params_aux, h, ih, List.all_cons, hp']

theorem parse_params_aux_error (ps : List FunctionParam) (acc : List (String × ParamProperty))
    (h : ps.all (fun p => isSupportedType p.typing) = false) :
    ∃ p ∈ ps, isSupportedType p.typing = false ∧
      parse_params_aux ps acc = .error (unsupportedMessage p.typing) := by
  induction ps generalizing acc with
  | nil => simp at h
  | cons p rest ih =>
    by_cases hp : isSupportedType p.typing = false
    · refine ⟨p, List.mem_cons_self p rest, hp, ?_⟩
      simp [parse_params_aux, parse_param_type_of_unsupported p.typing hp]
    · have hp' : isSupportedType p.typing = true := by
        cases hh : isSupportedType p.typing
        · exact absurd hh hp
        · rfl
      have hrest : rest.all (fun q => isSupportedType q.typing) = false := by
        simpa [List.all_cons, hp'] using h
      have hok := parse_param_type_isOk p.typing
      rw [hp'] at hok
      cases hpt : parse_param_type p.typing with
      | error e => rw [hpt] at hok; simp [isOkE] at hok
      | ok frag =>
        obtain ⟨q, hq, hqs, hqe⟩ :=
          ih (dictInsert acc p.name (withDescription frag p.description)) hrest
        exact ⟨q, List.mem_cons_of_mem p hq, hqs, by simp [parse_params_aux, hpt, hqe]⟩

theorem dictInsert_fresh {α : Type} (d : List (String × α)) (key : String) (val : α)
    (h : ∀ kv ∈ d, kv.1 ≠ key) : dictInsert d key val = d ++ [(key, val)] := by
  have : d.any (fun kv => kv.1 == key) = false := by
    simp only [List.any_eq_false]
    intro kv hkv
    simpa using h kv hkv
  simp [dictInsert, this]

theorem parse_params_aux_keys (ps : List FunctionParam) (acc : List (String × ParamProperty))
    (res : List (String × ParamProperty))
    (hfresh : ∀ p ∈ ps, ∀ kv ∈ acc, kv.1 ≠ p.name)
    (hnodup : (ps.map FunctionParam.name).Nodup)
    (hres : parse_params_aux ps acc = .ok res) :
    res.map Prod.fst = acc.map Prod.fst ++ ps.map FunctionParam.name := by
  induction ps generalizing acc with
  | nil =>
    simp only [parse_params_aux] at hres
    cases hres
    simp
  | cons p rest ih =>
    cases hpt : parse_param_type p.typing with
    | error e => simp [parse_params_aux, hpt] at hres
    | ok frag =>
      simp only [parse_params_aux, hpt] at hres
      have hins : dictInsert acc p.name (withDescription frag p.description)
          = acc ++ [(p.name, withDescription frag p.description)] :=
        dictInsert_fresh acc p.name _ (fun kv hkv => hfresh p (List.mem_cons_self p rest) kv hkv)
      rw [hins] at hres
      have hnodup' : (rest.map FunctionParam.name).Nodup := (List.nodup_cons.mp hnodup).2
      have hfresh' : ∀ q ∈ rest,
          ∀ kv ∈ acc ++ [(p.name, withDescription frag p.description)], kv.1 ≠ q.name := by
        intro q hq kv hkv
        rcases List.mem_append.mp hkv with hin | hone
        · exact hfresh q (List.mem_cons_of_mem p hq) kv hin
        · have hkv2 : kv = (p.name, withDescription frag p.description) := by
            simpa using hone
          subst hkv2
          intro hcontra
          have hc2 : p.name = q.name := hcontra
          exact (List.nodup_cons.mp hnodup).1
            (by rw [hc2]; exact List.mem_map_of_mem FunctionParam.name hq)
      have hmain := ih _ hfresh' hnodup' hres
      simpa using hmain

theorem removeReturn_idem (anns : List (String × PyType)) :
    removeReturn (removeReturn anns) = removeReturn anns := by
  simp [removeReturn, List.filter_filter]

theorem buildParams_all_supported (docs : List DocstringParam)
    (anns : List (String × PyType)) :
    ((buildParams docs anns).1).all (fun p => isSupportedType p.typing)
      = anns.all (fun kv => isSupportedType kv.2) := by
  induction anns with
  | nil => rfl
  | cons kv rest ih =>
    cases h : keyedLookup docs kv.1 <;> simp [buildParams, h, ih]

theorem schema_isOk (st : FuncState) :
    isOkE (schema st).2 =
      (removeReturn st.funcAnnotations).all (fun kv => isSupportedType kv.2) := by
  simp only [schema, create_function_params, parse_params, isOkE_map]
  rw [parse_params_aux_isOk]
  exact buildParams_all_supported _ _

theorem buildParams_names (docs : List DocstringParam) (anns : List (String × PyType)) :
    ((buildParams docs anns).1).map FunctionParam.name = anns.map Prod.fst := by
  induction anns with
  | nil => rfl
  | cons kv rest ih =>
    cases h : keyedLookup docs kv.1 <;> simp [buildParams, h, ih]

theorem schema_snd (st : FuncState) :
    (schema st).2 = (parse_params_aux
        ((buildParams st.docstringParams (removeReturn st.funcAnnotations)).1) []).map
      (fun props => ⟨"function", ⟨st.funcName, st.shortDescription, ⟨"object", props⟩⟩⟩) := by
  cases h : parse_params_aux
      ((buildParams st.docstringParams (removeReturn st.funcAnnotations)).1) [] with
  | error e => simp [schema, create_function_params, parse_params, h, Except.map]
  | ok props => simp [schema, create_function_params, parse_params, h, Except.map]

theorem schema_fst (st : FuncState) :
    (schema st).1 = { st with funcAnnotations := removeReturn st.funcAnnotations } := rfl

/-! ### Claim theorems -/

/-- C1, counterexample: a wrapped callable that returns `None` does not make
the adapter return the empty string — `getattr(None, "__str__")` is a truthy
bound method, so `__call__` returns `str(None)`, the text `None`. -/
theorem C1_counterexample :
    callAdapter ⟨fun _ => PyValue.vnone⟩ [] = "None" ∧
      callAdapter ⟨fun _ => PyValue.vnone⟩ [] ≠ "" := by
  constructor
  · rfl
  · intro h
    have : ("None" : String) = "" := by
      rw [← h]; rfl
    simp at this

/-- C1 (amended): for every invocation of the adapter whose wrapped callable
returns `None`, the adapter returns the string `None` (the textual
representation of `None`), not the empty string; the coercion step itself
never raises (in the embedding `coerceResult` is a total function, and the
empty-string fallback is reached only by objects with a falsy `__str__`
attribute). -/
theorem C1_amended_none_coercion (a : Adapter) (args : List PyValue)
    (h : a.func args = PyValue.vnone) : callAdapter a args = "None" := by
  simp [callAdapter, h, coerceResult, strAttrTruthy, pyStr]

theorem C1_amended_witness :
    (⟨fun _ => PyValue.vnone⟩ : Adapter).func [] = PyValue.vnone ∧
      callAdapter ⟨fun _ => PyValue.vnone⟩ [] = "None" :=
  ⟨rfl, C1_amended_none_coercion ⟨fun _ => PyValue.vnone⟩ [] rfl⟩

/-- C8: the adapter returns a string result of the wrapped callable
unchanged; a non-string result whose `__str__` attribute is truthy (it has a
textual representation) is returned as that `str(...)` text; in particular a
callable returning the integer `5` yields the string `5`. -/
theorem C8_result_coercion (a : Adapter) (args : List PyValue) (v : PyValue)
    (hv : a.func args = v) :
    (∀ s, v = .vstr s → callAdapter a args = s) ∧
      ((∀ s, v ≠ .vstr s) → strAttrTruthy v = true → callAdapter a args = pyStr v) ∧
      (v = .vint 5 → callAdapter a args = "5") := by
  refine ⟨?_, ?_, ?_⟩
  · intro s hs
    subst hs
    simp [callAdapter, hv, coerceResult]
  · intro hns ht
    cases v with
    | vstr s => exact absurd rfl (hns s)
    | vint n => simp [callAdapter, hv, coerceResult, strAttrTruthy, pyStr]
    | vnone => simp [callAdapter, hv, coerceResult, strAttrTruthy, pyStr]
    | vother b txt =>
      simp only [strAttrTruthy] at ht
      subst ht
      simp [callAdapter, hv, coerceResult, strAttrTruthy, pyStr]
  · intro h5
    subst h5
    simp [callAdapter, hv, coerceResult, strAttrTruthy, pyStr]
    rfl

theorem C8_witness :
    ((⟨fun _ => PyValue.vint 5⟩ : Adapter).func [] = PyValue.vint 5) ∧
      callAdapter ⟨fun _ => PyValue.vint 5⟩ [] = "5" :=
  ⟨rfl, (C8_result_coercion ⟨fun _ => PyValue.vint 5⟩ [] (PyValue.vint 5) rfl).2.2 rfl⟩

/-- C5: the Type Mapper returns exactly the fragments of spec section 4.1:
`str` maps to type `string`, `int` to type `int`, `float` to type `float`,
and both enumerated-string source shapes (`Literal` arguments, enum member
values) map to type `string` with the ordered value list as `enum`. -/
theorem C5_type_mapper_fragments (vs : List String) (hvs : vs ≠ []) :
    parse_param_type .pystr = .ok ⟨"string", none⟩ ∧
      parse_param_type .pyint = .ok ⟨"int", none⟩ ∧
      parse_param_type .pyfloat = .ok ⟨"float", none⟩ ∧
      parse_param_type (.literal vs) = .ok ⟨"string", some vs⟩ ∧
      parse_param_type (.enumType vs) = .ok ⟨"string", some vs⟩ := by
  refine ⟨rfl, rfl, rfl, ?_, ?_⟩
  · simp [parse_param_type, get_args, hvs]
  · simp [parse_param_type, get_args, isEnumSubclass, enumMemberValues]

theorem C5_witness :
    (["x", "y"] : List String) ≠ [] ∧
      parse_param_type (.literal ["x", "y"]) = .ok ⟨"string", some ["x", "y"]⟩ :=
  ⟨by decide, (C5_type_mapper_fragments ["x", "y"] (by decide)).2.2.2.1⟩

/-- C9, counterexample: an `Enum` subclass with no members is an
enumerated-string type hint that reaches the Schema Assembler with an empty
value list — the full pipeline succeeds and the descriptor's property
carries `enum = []`, violating the claimed non-emptiness invariant. -/
theorem C9_counterexample :
    (schema ⟨"g", "d", [], [("choice", PyType.enumType [])]⟩).2 =
      .ok ⟨"function", ⟨"g", "d",
        ⟨"object", [("choice", ⟨"string", some [], ""⟩)]⟩⟩⟩ := by
  rfl

/-- C9 (amended): every enum list emitted by the Type Mapper preserves
exactly the declared value order of its source construct, and for a
`Literal` source the list is necessarily non-empty; a member-less named
enumeration, however, yields an empty enum list. -/
theorem C9_amended_enum_order (t : PyType) (frag : TypeFragment) (vs : List String)
    (h : parse_param_type t = .ok frag) (he : frag.enum = some vs) :
    declaredEnumValues t = some vs ∧ (∀ args, t = .literal args → vs ≠ []) := by
  cases t with
  | pystr =>
    simp [parse_param_type] at h
    rw [← h] at he
    simp at he
  | pyint =>
    simp [parse_param_type] at h
    rw [← h] at he
    simp at he
  | pyfloat =>
    simp [parse_param_type] at h
    rw [← h] at he
    simp at he
  | literal args =>
    by_cases ha : args = []
    · subst ha
      simp [parse_param_type, get_args, isEnumSubclass] at h
    · simp [parse_param_type, get_args, ha] at h
      rw [← h] at he
      simp at he
      subst he
      exact ⟨rfl, fun args2 heq => PyType.literal.inj heq ▸ ha⟩
  | parameterized reprText args =>
    by_cases ha : args = []
    · subst ha
      simp [parse_param_type, get_args, isEnumSubclass] at h
    · simp [parse_param_type, get_args, ha] at h
      rw [← h] at he
      simp at he
      subst he
      exact ⟨rfl, fun args2 heq => by cases heq⟩
  | enumType values =>
    simp [parse_param_type, get_args, isEnumSubclass, enumMemberValues] at h
    rw [← h] at he
    simp at he
    subst he
    exact ⟨rfl, fun args heq => by cases heq⟩
  | enumNonString values =>
    simp [parse_param_type, get_args, isEnumSubclass, enumMemberValues] at h
    rw [← h] at he
    simp at he
    subst he
    exact ⟨rfl, fun args heq => by cases heq⟩
  | other r =>
    simp [parse_param_type, get_args, isEnumSubclass] at h

/-- C2, counterexample: a parameter annotated `list[int]` — a type category
outside the supported set {string, integer, float, enumerated-string} —
does not make `schema()` fail: `typing.get_args(list[int])` is the
non-empty tuple `(int,)`, so the walrus branch of `_parse_param_type`
accepts it and the pipeline succeeds, emitting a nonsense fragment whose
`enum` list holds the class object `int` itself. -/
theorem C2_counterexample :
    specSupportedCategory (PyType.parameterized "list[int]" ["<class 'int'>"]) = false ∧
      (schema ⟨"f", "d", [],
          [("xs", PyType.parameterized "list[int]" ["<class 'int'>"])]⟩).2 =
        .ok ⟨"function", ⟨"f", "d", ⟨"object",
          [("xs", ⟨"string", some ["<class 'int'>"], ""⟩)]⟩⟩⟩ :=
  ⟨rfl, rfl⟩

/-- C2 (amended): `schema()` fails with the `ValueError` exactly when some
declared non-return parameter's hint falls through every branch of
`_parse_param_type` — it is none of `str`/`int`/`float`, `typing.get_args`
on it is empty, and it is not an `Enum` subclass; on such a failure no
descriptor (partial or otherwise) is produced and the error message names
the offending type.  Every hint so rejected is indeed outside the supported
category set, but not conversely: parameterized hints such as `list[int]`
or a non-string `Literal`, and non-string-valued `Enum`s, are accepted by
the `get_args`/`Enum` branches instead of being rejected. -/
theorem C2_schema_unsupported_type (st : FuncState) :
    (isOkE (schema st).2 = true ↔
      ∀ kv ∈ removeReturn st.funcAnnotations, isSupportedType kv.2 = true) ∧
      ((∃ kv ∈ removeReturn st.funcAnnotations, isSupportedType kv.2 = false) →
        ∃ k t, (k, t) ∈ removeReturn st.funcAnnotations ∧ isSupportedType t = false ∧
          (schema st).2 = .error (unsupportedMessage t)) ∧
      (∀ t : PyType, isSupportedType t = false → specSupportedCategory t = false) := by
  refine ⟨?_, ?_, ?_⟩
  · rw [schema_isOk]
    exact List.all_eq_true
  · rintro ⟨kv, hmem, hfalse⟩
    have hall : (removeReturn st.funcAnnotations).all
        (fun kv => isSupportedType kv.2) = false := by
      cases hcase : (removeReturn st.funcAnnotations).all (fun kv => isSupportedType kv.2) with
      | false => rfl
      | true =>
        have := List.all_eq_true.mp hcase kv hmem
        rw [this] at hfalse
        cases hfalse
    have hparams : ((buildParams st.docstringParams (removeReturn st.funcAnnotations)).1).all
        (fun p => isSupportedType p.typing) = false := by
      rw [buildParams_all_supported]
      exact hall
    obtain ⟨p, hp, hps, herr⟩ := parse_params_aux_error _ [] hparams
    refine ⟨p.name, p.typing, ?_, hps, ?_⟩
    · have hmm := List.mem_map_of_mem (fun q => (q.name, q.typing)) hp
      rw [buildParams_pairs] at hmm
      exact hmm
    · rw [schema_snd, herr]
      rfl
  · intro t ht
    cases t <;>
      simp_all [isSupportedType, specSupportedCategory, get_args, isEnumSubclass]

theorem C2_witness :
    isOkE (schema ⟨"f", "d", [], [("a", PyType.pyint)]⟩).2 = true ∧
      (schema ⟨"g", "d", [], [("b", PyType.other "<class 'dict'>")]⟩).2 =
        .error (unsupportedMessage (PyType.other "<class 'dict'>")) ∧
      specSupportedCategory (PyType.other "<class 'dict'>") = false := by
  refine ⟨?_, ?_, ?_⟩
  · exact (C2_schema_unsupported_type ⟨"f", "d", [], [("a", PyType.pyint)]⟩).1.mpr (by decide)
  · obtain ⟨k, t, hmem, hfalse, herr⟩ :=
      (C2_schema_unsupported_type ⟨"g", "d", [], [("b", PyType.other "<class 'dict'>")]⟩).2.1
        ⟨("b", PyType.other "<class 'dict'>"), by decide, by decide⟩
    have hmem2 : (k, t) ∈ [("b", PyType.other "<class 'dict'>")] := hmem
    simp only [List.mem_singleton, Prod.mk.injEq] at hmem2
    rw [hmem2.2] at herr
    exact herr
  · exact (C2_schema_unsupported_type ⟨"g", "d", [], [("b", PyType.other "<class 'dict'>")]⟩).2.2
      (PyType.other "<class 'dict'>") (by decide)

/-- C3 (code bug): the claim says no operation mutates the wrapped
callable's metadata, but `_create_function_params` runs
`del annotations["return"]` on the callable's live `__annotations__` dict,
so after `schema()` the annotation map has lost its `"return"` entry. -/
theorem C3_schema_mutates_annotations :
    (schema ⟨"f", "d", [],
        [("a", PyType.pyint), ("return", PyType.pyint)]⟩).1.funcAnnotations
        = [("a", PyType.pyint)] ∧
      (schema ⟨"f", "d", [],
        [("a", PyType.pyint), ("return", PyType.pyint)]⟩).1.funcAnnotations ≠
        [("a", PyType.pyint), ("return", PyType.pyint)] := by
  refine ⟨rfl, ?_⟩
  decide

/-- C4: the insertion order of the keys of the generated
`parameters.properties` mapping equals the declaration order of the
callable's parameters (the iteration order of its annotation map with the
`"return"` sentinel removed), for every docstring whatsoever. -/
theorem C4_properties_declaration_order (st : FuncState) (d : SchemaDescriptor)
    (hnodup : (st.funcAnnotations.map Prod.fst).Nodup)
    (hok : (schema st).2 = .ok d) :
    d.function.parameters.properties.map Prod.fst =
      (removeReturn st.funcAnnotations).map Prod.fst := by
  rw [schema_snd] at hok
  cases haux : parse_params_aux
      ((buildParams st.docstringParams (removeReturn st.funcAnnotations)).1) [] with
  | error e => rw [haux] at hok; cases hok
  | ok props =>
    rw [haux] at hok
    simp only [Except.map, Except.ok.injEq] at hok
    subst hok
    have hfresh : ∀ p ∈ (buildParams st.docstringParams (removeReturn st.funcAnnotations)).1,
        ∀ kv ∈ ([] : List (String × ParamProperty)), kv.1 ≠ p.name := by
      intro p _ kv hkv
      cases hkv
    have hnames := buildParams_names st.docstringParams (removeReturn st.funcAnnotations)
    have hsub : List.Sublist ((removeReturn st.funcAnnotations).map Prod.fst)
        (st.funcAnnotations.map Prod.fst) :=
      List.Sublist.map Prod.fst (List.filter_sublist st.funcAnnotations)
    have hnodup2 : (((buildParams st.docstringParams
        (removeReturn st.funcAnnotations)).1).map FunctionParam.name).Nodup := by
      rw [hnames]
      exact List.Nodup.sublist hsub hnodup
    have hkeys := parse_params_aux_keys _ [] props hfresh hnodup2 haux
    simpa [hnames] using hkeys

theorem C4_witness :
    ((([("a", PyType.pyint), ("b", PyType.pystr)] :
        List (String × PyType)).map Prod.fst).Nodup) ∧
      (schema ⟨"f", "d", [⟨"b", "B"⟩, ⟨"a", "A"⟩],
        [("a", PyType.pyint), ("b", PyType.pystr)]⟩).2 =
        .ok ⟨"function", ⟨"f", "d", ⟨"object",
          [("a", ⟨"int", none, "A"⟩), ("b", ⟨"string", none, "B"⟩)]⟩⟩⟩ ∧
      ([("a", (⟨"int", none, "A"⟩ : ParamProperty)),
        ("b", ⟨"string", none, "B"⟩)].map Prod.fst = ["a", "b"]) := by
  refine ⟨by decide, by rfl, ?_⟩
  have h := C4_properties_declaration_order
    ⟨"f", "d", [⟨"b", "B"⟩, ⟨"a", "A"⟩], [("a", PyType.pyint), ("b", PyType.pystr)]⟩
    ⟨"function", ⟨"f", "d", ⟨"object",
      [("a", ⟨"int", none, "A"⟩), ("b", ⟨"string", none, "B"⟩)]⟩⟩⟩
    (by decide) (by rfl)
  exact h.trans (by rfl)

/-- C6: a declared non-return parameter with no exactly-matching docstring
entry yields a record whose description is the empty string, a warning
naming the parameter is logged, and schema generation still succeeds
whenever all declared parameter types are supported. -/
theorem C6_missing_docs_degrade (st : FuncState) (key : String) (ty : PyType)
    (hmem : (key, ty) ∈ removeReturn st.funcAnnotations)
    (hdoc : keyedLookup st.docstringParams key = none) :
    (⟨key, ty, ""⟩ : FunctionParam) ∈
        (create_function_params st.funcAnnotations st.docstringParams).params ∧
      warningMessage key ∈
        (create_function_params st.funcAnnotations st.docstringParams).diagnostics ∧
      ((removeReturn st.funcAnnotations).all (fun kv => isSupportedType kv.2) = true →
        isOkE (schema st).2 = true) := by
  have h := buildParams_mem st.docstringParams (removeReturn st.funcAnnotations) key ty hmem hdoc
  exact ⟨h.1, h.2, fun hsup => (schema_isOk st).trans hsup⟩

theorem C6_witness :
    (("a", PyType.pyint) ∈ removeReturn [("a", PyType.pyint)]) ∧
      (⟨"a", PyType.pyint, ""⟩ : FunctionParam) ∈
        (create_function_params [("a", PyType.pyint)] []).params ∧
      warningMessage "a" ∈ (create_function_params [("a", PyType.pyint)] []).diagnostics ∧
      isOkE (schema ⟨"f", "d", [], [("a", PyType.pyint)]⟩).2 = true := by
  have h := C6_missing_docs_degrade ⟨"f", "d", [], [("a", PyType.pyint)]⟩ "a" PyType.pyint
    (by decide) (by rfl)
  exact ⟨by decide, h.1, h.2.1, h.2.2 (by decide)⟩

/-- C7: the extractor produces exactly one record per entry of the
annotation map other than the `"return"` sentinel, in order, whatever the
documentation entries are (extra entries never create records), and no
record is the return-type sentinel.  A parameter without any type hint is
absent from the annotation map, so by the same equation it produces no
record. -/
theorem C7_extractor_exact_records (anns : List (String × PyType))
    (docs : List DocstringParam) :
    ((create_function_params anns docs).params.map (fun p => (p.name, p.typing))
        = removeReturn anns) ∧
      ∀ p ∈ (create_function_params anns docs).params, p.name ≠ "return" := by
  refine ⟨buildParams_pairs docs (removeReturn anns), ?_⟩
  intro p hp
  have hmm : (p.name, p.typing) ∈
      ((buildParams docs (removeReturn anns)).1).map (fun q => (q.name, q.typing)) :=
    List.mem_map_of_mem (fun q => (q.name, q.typing)) hp
  rw [buildParams_pairs] at hmm
  have hfilter := List.of_mem_filter hmm
  simpa using hfilter

theorem C7_witness :
    ((create_function_params [("a", PyType.pyint), ("return", PyType.pyint)]
        [⟨"zz", "extra"⟩]).params.map (fun p => (p.name, p.typing))
      = [("a", PyType.pyint)]) ∧
      (⟨"a", PyType.pyint, ""⟩ : FunctionParam).name ≠ "return" := by
  have h := C7_extractor_exact_records [("a", PyType.pyint), ("return", PyType.pyint)]
    [⟨"zz", "extra"⟩]
  refine ⟨h.1.trans (by rfl), ?_⟩
  exact h.2 ⟨"a", PyType.pyint, ""⟩ (by decide)

/-- C10: `schema()` is idempotent per adapter instance: when a call
succeeds, calling again on the post-call state (whose annotation map lost
its `"return"` entry to the first call's `del`) returns the same result. -/
theorem C10_schema_idempotent (st : FuncState)
    (h : isOkE (schema st).2 = true) :
    (schema (schema st).1).2 = (schema st).2 := by
  rw [schema_fst, schema_snd, schema_snd]
  simp [removeReturn_idem]

theorem C10_witness :
    isOkE (schema ⟨"f", "d", [], [("a", PyType.pyint),
        ("return", PyType.other "NoneType")]⟩).2 = true ∧
      (schema (schema ⟨"f", "d", [], [("a", PyType.pyint),
        ("return", PyType.other "NoneType")]⟩).1).2 =
        (schema ⟨"f", "d", [], [("a", PyType.pyint),
          ("return", PyType.other "NoneType")]⟩).2 :=
  ⟨by rfl, C10_schema_idempotent _ (by rfl)⟩

theorem C9_amended_witness :
    parse_param_type (PyType.literal ["x", "y"]) = .ok ⟨"string", some ["x", "y"]⟩ ∧
      (⟨"string", some ["x", "y"]⟩ : TypeFragment).enum = some ["x", "y"] ∧
      declaredEnumValues (PyType.literal ["x", "y"]) = some ["x", "y"] ∧
      (["x", "y"] : List String) ≠ [] := by
  refine ⟨by rfl, rfl, ?_, ?_⟩
  · exact (C9_amended_enum_order (PyType.literal ["x", "y"]) ⟨"string", some ["x", "y"]⟩
      ["x", "y"] (by rfl) rfl).1
  · exact (C9_amended_enum_order (PyType.literal ["x", "y"]) ⟨"string", some ["x", "y"]⟩
      ["x", "y"] (by rfl) rfl).2 ["x", "y"] rfl

end GPT
